import Mathlib

/-!
Shallow embedding of the pocketpy core value model (`src/public/values.c`,
`include/pocketpy/pocketpy.h`, `include/pocketpy/common/config.h`).

The universal value carrier `py_TValue` is a tagged cell holding a signed
16-bit type tag, an `is_ptr` flag and a payload union.  Heap objects carry a
header type, a slot array and a user-data region.  Functions whose bodies are
not part of the sources (heap allocator, name pool, stack operations,
`py_vectorcall`, magic-slot lookup, attribute-store writes) are modelled from
the specification; each such definition says so in its doc comment.
-/

set_option autoImplicit false
set_option linter.unusedVariables false

namespace PocketPy

/-- Predefined type ids from `enum py_PredefinedTypes` (`pocketpy.h`): `tp_object = 1`. -/
def tp_object : Int := 1

/-- Predefined type id `tp_type` (= 2). -/
def tp_type : Int := 2

/-- Predefined type id `tp_int` (= 3). -/
def tp_int : Int := 3

/-- Predefined type id `tp_float` (= 4). -/
def tp_float : Int := 4

/-- Predefined type id `tp_bool` (= 5). -/
def tp_bool : Int := 5

/-- Predefined type id `tp_str` (= 6). -/
def tp_str : Int := 6

/-- Predefined type id `tp_slice` (= 11): 3 slots (start, stop, step). -/
def tp_slice : Int := 11

/-- Predefined type id `tp_function` (= 15). -/
def tp_function : Int := 15

/-- Predefined type id `tp_nativefunc` (= 16). -/
def tp_nativefunc : Int := 16

/-- Predefined type id `tp_bytes` (= 21). -/
def tp_bytes : Int := 21

/-- Predefined type id `tp_NoneType` (= 31). -/
def tp_NoneType : Int := 31

/-- Predefined type id `tp_NotImplementedType` (= 32). -/
def tp_NotImplementedType : Int := 32

/-- Predefined type id `tp_ellipsis` (= 33). -/
def tp_ellipsis : Int := 33

/-- Predefined type id `tp_StackOverflowError` (= 39). -/
def tp_StackOverflowError : Int := 39

/-- Alias used by `values.c` for `tp_NoneType`. -/
def tp_none_type : Int := tp_NoneType

/-- Alias used by `values.c` for `tp_NotImplementedType`. -/
def tp_not_implemented_type : Int := tp_NotImplementedType

/-- Native function pointers (`py_CFunction`) are modelled by their identity,
an abstract numeric id; the VM never inspects the pointee, it only stores and
invokes it. -/
abbrev py_CFunction := Nat

/-- Heap addresses: an index into the managed heap's object list. -/
abbrev Addr := Nat

/-- The payload union of a `py_TValue` cell: exactly one member is written by
each constructor (`_i64`, `_f64`, `_bool`, `_cfunc`, `_obj`); `undef` stands
for a member that was never written (uninitialized union storage). -/
inductive Payload where
  | undef : Payload
  | i64 (v : Int) : Payload
  | f64 (v : Float) : Payload
  | b (v : Bool) : Payload
  | cfunc (f : py_CFunction) : Payload
  | obj (a : Addr) : Payload
deriving Repr

/-- The universal 16-byte tagged cell `py_TValue`: a signed 16-bit type tag
(`0` is the non-value `nil`), an is-pointer flag, and the payload union. -/
structure py_TValue where
  type : Int
  is_ptr : Bool
  payload : Payload
deriving Repr

/-- The user-data region of a heap object.  `uninit n` is `n` uninitialized
bytes as produced by the allocator; `bytesBuf` is the length-prefixed byte
buffer written by `py_newbytes` (`int` size followed by the bytes);
`strBuf` is the length-prefixed UTF-8 buffer written by `py_newstrn`
(a `c11_string`: size followed by the bytes and a terminator). -/
inductive UData where
  | uninit (n : Nat) : UData
  | bytesBuf (size : Int) (data : List Int) : UData
  | strBuf (size : Int) (data : List Int) : UData
deriving Repr

/-- A heap object: header-recorded type, the slot array of child cells that
immediately follows the header, and the user-data region. -/
structure PyObject where
  htype : Int
  slots : List py_TValue
  udata : UData
deriving Repr

/-- The managed heap of one VM: objects addressed by allocation order. -/
structure Heap where
  objects : List PyObject
deriving Repr

/-- The `nil` cell: type tag `0`, no pointer, nothing written in the union. -/
def nilCell : py_TValue := ⟨0, false, .undef⟩

/-- Heap lookup by address. -/
def heapGet (h : Heap) (a : Addr) : Option PyObject :=
  h.objects.get? a

/-- Replace the object stored at address `a` (no-op if `a` is unallocated). -/
def heapModify (h : Heap) (a : Addr) (f : PyObject → PyObject) : Heap :=
  match h.objects.get? a with
  | some o => ⟨h.objects.set a (f o)⟩
  | none => h

/-- Modelled from the spec: the heap allocator `pk_ManagedHeap__gcnew`
(§4.2, not under `src/`): `alloc(type, slot_count, user_data_size)` fills the
header fields, initializes every slot to `nil` and leaves the user-data
region uninitialized; the new object is appended to the heap and its address
returned. -/
def pk_ManagedHeap__gcnew (h : Heap) (type : Int) (slots : Int) (udsize : Nat) :
    Heap × Addr :=
  (⟨h.objects ++ [⟨type, List.replicate slots.toNat nilCell, .uninit udsize⟩]⟩,
   h.objects.length)

/-- Attribute store of one object: name-id keyed map (modelled as an
association list with insert-or-replace update). -/
abbrev AttrStore := List (Nat × py_TValue)

/-- The VM state visible to the embedded operations: the name pool, the
managed heap, the per-object attribute stores (keyed by address), the value
stack, the `last_return` register, the current exception slot (`none` =
clear) and the recorded unwind point (a saved stack depth). -/
structure VMState where
  names : List String
  heap : Heap
  dicts : List (Addr × AttrStore)
  stack : List py_TValue
  last_return : py_TValue
  exc : Option py_TValue
  unwind : Nat
deriving Repr

/-! ### Immediate value constructors (`values.c`) -/

/-- Translation of `py_newint`: sets `type = tp_int`, `is_ptr = false`,
writes `_i64`. -/
def py_newint (out : py_TValue) (val : Int) : py_TValue :=
  { out with type := tp_int, is_ptr := false, payload := .i64 val }

/-- Translation of `py_newfloat`: sets `type = tp_float`, `is_ptr = false`,
writes `_f64`. -/
def py_newfloat (out : py_TValue) (val : Float) : py_TValue :=
  { out with type := tp_float, is_ptr := false, payload := .f64 val }

/-- Translation of `py_newbool`: sets `type = tp_bool`, `is_ptr = false`,
writes `_bool`. -/
def py_newbool (out : py_TValue) (val : Bool) : py_TValue :=
  { out with type := tp_bool, is_ptr := false, payload := .b val }

/-- Translation of `py_newnone`: sets only `type` and `is_ptr`; the payload
union is left as it was. -/
def py_newnone (out : py_TValue) : py_TValue :=
  { out with type := tp_none_type, is_ptr := false }

/-- Translation of `py_newnotimplemented`: sets only `type` and `is_ptr`. -/
def py_newnotimplemented (out : py_TValue) : py_TValue :=
  { out with type := tp_not_implemented_type, is_ptr := false }

/-- Translation of `py_newellipsis`: sets only `type` and `is_ptr`. -/
def py_newellipsis (out : py_TValue) : py_TValue :=
  { out with type := tp_ellipsis, is_ptr := false }

/-- Translation of `py_newnull`: writes only `out->type = 0`; `is_ptr` and
the payload union keep their previous contents. -/
def py_newnull (out : py_TValue) : py_TValue :=
  { out with type := 0 }

/-- Translation of `py_newnativefunc`: sets `type = tp_nativefunc`,
`is_ptr = false`, writes `_cfunc`. -/
def py_newnativefunc (out : py_TValue) (f : py_CFunction) : py_TValue :=
  { out with type := tp_nativefunc, is_ptr := false, payload := .cfunc f }

/-! ### Heap value constructors (`values.c`) -/

/-- Translation of `py_newstrn`: allocates a `tp_str` object with 0 slots and
a `c11_string` user-data region (`c11_string__ctor2` records the size and
copies the bytes), then writes a pointer cell tagged `tp_str`. -/
def py_newstrn (st : VMState) (out : py_TValue) (data : List Int) :
    VMState × py_TValue :=
  let (h1, a) := pk_ManagedHeap__gcnew st.heap tp_str 0 (data.length + 5)
  let h2 := heapModify h1 a (fun o => { o with udata := .strBuf data.length data })
  ({ st with heap := h2 },
   { out with type := tp_str, is_ptr := true, payload := .obj a })

/-- Translation of `py_newbytes`: allocates a `tp_bytes` object with 0 slots
and `sizeof(int) + size` bytes of user data, writes the size at offset 0
(`*psize = size`) and copies the bytes after it (`memcpy(psize + 1, ...)`),
then writes a pointer cell tagged `tp_bytes`. -/
def py_newbytes (st : VMState) (out : py_TValue) (data : List Int) :
    VMState × py_TValue :=
  let (h1, a) := pk_ManagedHeap__gcnew st.heap tp_bytes 0 (data.length + 4)
  let h2 := heapModify h1 a (fun o => { o with udata := .bytesBuf data.length data })
  ({ st with heap := h2 },
   { out with type := tp_bytes, is_ptr := true, payload := .obj a })

/-- Translation of `py_newobject`: allocates an object of the given type with
the given slot count and user-data size, then writes a pointer cell carrying
the same type tag. -/
def py_newobject (st : VMState) (out : py_TValue) (type : Int) (slots : Int)
    (udsize : Nat) : VMState × py_TValue :=
  let (h1, a) := pk_ManagedHeap__gcnew st.heap type slots udsize
  ({ st with heap := h1 },
   { out with type := type, is_ptr := true, payload := .obj a })

/-! ### Name pool (spec §4.1; implementation not under `src/`) -/

/-- Search helper for the name pool: index of the first pool entry equal to
`b`, if any. -/
def internIdx : List String → String → Option Nat
  | [], _ => none
  | s :: rest, b => if s = b then some 0 else (internIdx rest b).map (· + 1)

/-- Modelled from the spec: `py_name` / `intern(bytes) → id` (§4.1, not under
`src/`): an already-interned byte-sequence keeps its id, a new one is
appended to the pool and receives the next id. -/
def py_name (pool : List String) (b : String) : List String × Nat :=
  match internIdx pool b with
  | some i => (pool, i)
  | none => (pool ++ [b], pool.length)

/-- Modelled from the spec: `py_name2str` / `lookup(id) → bytes` (§4.1, not
under `src/`): returns the pool entry stored under the id. -/
def py_name2str (pool : List String) (n : Nat) : String :=
  pool.getD n ""

/-! ### Attribute stores and `py_setdict` (spec §4.4; implementation not
under `src/`) -/

/-- Insert-or-replace on one attribute store. -/
def attrSet (d : AttrStore) (k : Nat) (v : py_TValue) : AttrStore :=
  match d with
  | [] => [(k, v)]
  | (k', v') :: rest => if k' = k then (k, v) :: rest else (k', v') :: attrSet rest k v

/-- Lookup on one attribute store. -/
def attrGet (d : AttrStore) (k : Nat) : Option py_TValue :=
  match d with
  | [] => none
  | (k', v') :: rest => if k' = k then some v' else attrGet rest k

/-- Insert-or-replace across the per-object attribute stores. -/
def dictsSet (ds : List (Addr × AttrStore)) (a : Addr) (k : Nat) (v : py_TValue) :
    List (Addr × AttrStore) :=
  match ds with
  | [] => [(a, [(k, v)])]
  | (a', d) :: rest =>
    if a' = a then (a, attrSet d k v) :: rest else (a', d) :: dictsSet rest a k v

/-- Lookup across the per-object attribute stores. -/
def dictsGet (ds : List (Addr × AttrStore)) (a : Addr) (k : Nat) : Option py_TValue :=
  match ds with
  | [] => none
  | (a', d) :: rest => if a' = a then attrGet d k else dictsGet rest a k

/-- Modelled from the spec: `py_setdict` (§4.4, not under `src/`) writes a
name/value pair into the attribute store of the object the cell points to. -/
def py_setdict (st : VMState) (self : py_TValue) (name : Nat) (val : py_TValue) :
    VMState :=
  match self.payload with
  | .obj a => { st with dicts := dictsSet st.dicts a name val }
  | _ => st

/-- Modelled from the spec: `py_tpobject` (not under `src/`) returns a
reference to the heap-allocated type object of a registered type; the type
object of type `t` is modelled as residing at address `t`. -/
def py_tpobject (type : Int) : py_TValue :=
  ⟨tp_type, true, .obj type.toNat⟩

/-! ### Functions and bindings (`values.c`) -/

/-- Bind types accepted by `py_newfunction2` / `py_bindmethod2`
(`BindType_FUNCTION` is the one `values.c` uses). -/
inductive BindType where
  | function : BindType
  | staticmethod : BindType
  | classmethod : BindType
deriving Repr, DecidableEq

/-- Translation of `py_newfunction2`: the body is empty (`{}`); neither the
output cell nor any other VM state is touched. -/
def py_newfunction2 (st : VMState) (out : py_TValue) (f : py_CFunction)
    (sig : String) (bt : BindType) (docstring : Option String)
    (upvalue : Option py_TValue) : VMState × py_TValue :=
  (st, out)

/-- Translation of `py_newfunction`: forwards to `py_newfunction2` with
`BindType_FUNCTION` and NULL docstring/upvalue. -/
def py_newfunction (st : VMState) (out : py_TValue) (f : py_CFunction)
    (sig : String) : VMState × py_TValue :=
  py_newfunction2 st out f sig .function none none

/-- Translation of `py_bindmethod2`: builds a `nativefunc` cell in a stack
temporary and stores it in the type object's dict under the interned name;
the `bt` parameter is not used by the body. -/
def py_bindmethod2 (st : VMState) (type : Int) (name : String)
    (f : py_CFunction) (bt : BindType) : VMState :=
  let tmp := py_newnativefunc nilCell f
  let (pool, id) := py_name st.names name
  py_setdict { st with names := pool } (py_tpobject type) id tmp

/-- Translation of `py_bindmethod`: forwards to `py_bindmethod2` with
`BindType_FUNCTION`. -/
def py_bindmethod (st : VMState) (type : Int) (name : String)
    (f : py_CFunction) : VMState :=
  py_bindmethod2 st type name f .function

/-- Translation of `py_bindnativefunc`: builds a `nativefunc` cell and stores
it in the dict of the given object under the interned name. -/
def py_bindnativefunc (st : VMState) (obj : py_TValue) (name : String)
    (f : py_CFunction) : VMState :=
  let tmp := py_newnativefunc nilCell f
  let (pool, id) := py_name st.names name
  py_setdict { st with names := pool } obj id tmp

/-! ### Slots and slices (`values.c`) -/

/-- Modelled from the spec: `py_setslot` (not under `src/`) writes the `i`-th
slot of the heap object the cell points to. -/
def py_setslot (st : VMState) (self : py_TValue) (i : Nat) (val : py_TValue) :
    VMState :=
  match self.payload with
  | .obj a =>
    let h := heapModify st.heap a (fun o => { o with slots := o.slots.set i val })
    { st with heap := h }
  | _ => st

/-- Translation of `py_newslice`: creates a `tp_slice` object with 3 slots
and no user data, then stores `start`, `stop`, `step` in slots 0, 1, 2. -/
def py_newslice (st : VMState) (out : py_TValue) (start stop step : py_TValue) :
    VMState × py_TValue :=
  let (st1, c) := py_newobject st out tp_slice 3 0
  let st2 := py_setslot st1 c 0 start
  let st3 := py_setslot st2 c 1 stop
  let st4 := py_setslot st3 c 2 step
  (st4, c)

/-! ### Value stack (spec §3, §4.5, §8; `py_push` implementation not under
`src/`) -/

/-- Maximum size of the value stack in `PyVar` units
(`include/pocketpy/common/config.h`). -/
def PK_VM_STACK_SIZE : Nat := 16384

/-- An exception cell carrying a `StackOverflowError` instance. -/
def stackOverflowCell : py_TValue := ⟨tp_StackOverflowError, true, .undef⟩

/-- Modelled from the spec: `py_push` (not under `src/`).  Pushing onto the
value stack when the height equals `PK_VM_STACK_SIZE` raises
`StackOverflowError` (the cell is not written past the stack); otherwise the
cell is copied to the top of the stack. -/
def py_push (st : VMState) (src : py_TValue) : VMState :=
  if st.stack.length = PK_VM_STACK_SIZE then
    { st with exc := some stackOverflowCell }
  else
    { st with stack := st.stack ++ [src] }

/-! ### Vector call (spec §4.5; `py_vectorcall` implementation not under
`src/`) -/

/-- Outcome of executing the callee, which is external to the core spec (the
bytecode interpreter and native callbacks are out of scope): either a result
value or a raised exception. -/
inductive CallOutcome where
  | success (result : py_TValue) : CallOutcome
  | failure (exc : py_TValue) : CallOutcome
deriving Repr

/-- Modelled from the spec: `py_vectorcall(argc, kwargc)` (§4.5, not under
`src/`).  The stack holds the callable followed by the `argc + kwargc`
prepared arguments; the callee's behavior is abstracted by `outcome`.
Success writes the result into the `last_return` register and shrinks the
stack by `argc + kwargc + 1` (the callable), returning `true`; failure
leaves the exception in the exception slot and shrinks the stack to the
recorded unwind point, returning `false`. -/
def py_vectorcall (st : VMState) (argc kwargc : Nat) (outcome : CallOutcome) :
    VMState × Bool :=
  match outcome with
  | .success r =>
    ({ st with stack := st.stack.take (st.stack.length - (argc + kwargc + 1)),
               last_return := r }, true)
  | .failure e =>
    ({ st with stack := st.stack.take st.unwind, exc := some e }, false)

/-! ### Type registry and magic-slot lookup (spec §3, §4.3; implementations
not under `src/`) -/

/-- Registry entry for one type: its base type id (`0` terminates the
single-inheritance chain above `object`) and its fixed-length magic-slot
vector indexed by magic-name id (entries may be `nil`). -/
structure TypeInfo where
  base : Nat
  magic : List py_TValue

/-- The type registry: types created in insertion order, type id `t ≥ 1`
stored at index `t - 1`. -/
abbrev TypeRegistry := List TypeInfo

/-- Test for the `nil` cell (type tag `0`), as `py_isnil` does. -/
def py_isnil (c : py_TValue) : Bool :=
  c.type == 0

/-- Modelled from the spec: `py_tpgetmagic` (§4.3, not under `src/`) returns
the magic slot of the given type only — it never walks the base chain — and
the slot's current value may be `nil`. -/
def py_tpgetmagic (reg : TypeRegistry) (t : Nat) (name : Nat) : py_TValue :=
  match reg.get? (t - 1) with
  | some ti => ti.magic.getD name nilCell
  | none => nilCell

/-- Recursion kernel of the base-chain walk; the fuel bounds the chain
length (any chain starting at `t` has length at most `t` in a well-formed
registry, since every base id is smaller than its subtype's id). -/
def findMagicAux (reg : TypeRegistry) (name : Nat) : Nat → Nat → Option py_TValue
  | 0, _ => none
  | fuel + 1, t =>
    if t = 0 then none
    else
      let f := py_tpgetmagic reg t name
      if py_isnil f then
        match reg.get? (t - 1) with
        | some ti => findMagicAux reg name fuel ti.base
        | none => none
      else some f

/-- Modelled from the spec: `py_tpfindmagic` (§4.3, not under `src/`)
searches the magic method from the given type up through its bases and
returns the first non-`nil` slot, or NULL (`none`) when the chain is
exhausted. -/
def py_tpfindmagic (reg : TypeRegistry) (t : Nat) (name : Nat) : Option py_TValue :=
  findMagicAux reg name (t + 1) t

/-- Ancestor walk kernel with the same fuel discipline as `findMagicAux`. -/
def ancestorsAux (reg : TypeRegistry) : Nat → Nat → List Nat
  | 0, _ => []
  | fuel + 1, t =>
    if t = 0 then []
    else
      t :: (match reg.get? (t - 1) with
            | some ti => ancestorsAux reg fuel ti.base
            | none => [])

/-- The base-chain ancestors `T = T_0, T_1, …` of a type, in walk order. -/
def ancestors (reg : TypeRegistry) (t : Nat) : List Nat :=
  ancestorsAux reg (t + 1) t

/-- First non-`nil` cell of a list, if any. -/
def firstNonNil (l : List py_TValue) : Option py_TValue :=
  l.find? (fun c => !py_isnil c)

/-- Registry well-formedness, computably: every entry's base id is at most
its own index (so strictly below its own type id `index + 1`), which is what
creation in insertion order guarantees. -/
def wfRegistryb (reg : TypeRegistry) : Bool :=
  (List.range reg.length).all (fun i => (reg.getD i ⟨0, []⟩).base ≤ i)

/-- Computable check of the pointer-cell invariant (spec §3, §8): the cell is
pointer-kind, its payload addresses a live heap object, and the type recorded
in that object's header equals the cell's type tag. -/
def cellPtrInvb (st : VMState) (c : py_TValue) : Bool :=
  c.is_ptr &&
    (match c.payload with
     | .obj a =>
       (match heapGet st.heap a with
        | some o => o.htype == c.type
        | none => false)
     | _ => false)

/-! ## Helper lemmas -/

theorem heapGet_concat (objs : List PyObject) (o : PyObject) :
    heapGet ⟨objs ++ [o]⟩ objs.length = some o := by
  simp [heapGet, List.get?_eq_getElem?, List.getElem?_concat_length]

theorem heapModify_concat (objs : List PyObject) (o : PyObject)
    (f : PyObject → PyObject) :
    heapModify ⟨objs ++ [o]⟩ objs.length f = ⟨objs ++ [f o]⟩ := by
  simp [heapModify, List.get?_eq_getElem?, List.getElem?_concat_length,
    List.set_append]

theorem attrGet_attrSet (d : AttrStore) (k : Nat) (v : py_TValue) :
    attrGet (attrSet d k v) k = some v := by
  induction d with
  | nil => simp [attrSet, attrGet]
  | cons hd tl ih =>
    obtain ⟨k', v'⟩ := hd
    by_cases h : k' = k
    · simp [attrSet, attrGet, h]
    · simp [attrSet, attrGet, h, ih]

theorem dictsGet_dictsSet (ds : List (Addr × AttrStore)) (a : Addr) (k : Nat)
    (v : py_TValue) :
    dictsGet (dictsSet ds a k v) a k = some v := by
  induction ds with
  | nil => simp [dictsSet, dictsGet, attrGet]
  | cons hd tl ih =>
    obtain ⟨a', d⟩ := hd
    by_cases h : a' = a
    · simp [dictsSet, dictsGet, h, attrGet_attrSet]
    · simp [dictsSet, dictsGet, h, ih]

theorem internIdx_getD (pool : List String) (n : Nat) (hnd : pool.Nodup)
    (hn : n < pool.length) :
    internIdx pool (pool.getD n "") = some n := by
  induction pool generalizing n with
  | nil => simp at hn
  | cons s rest ih =>
    match n with
    | 0 => simp [internIdx]
    | m + 1 =>
      have hm : m < rest.length := by simpa using hn
      have hmem : rest.getD m "" ∈ rest := by
        rw [List.getD_eq_getElem rest "" hm]
        exact List.getElem_mem hm
      have hne : ¬ s = rest.getD m "" := by
        intro hcontra
        exact (List.nodup_cons.mp hnd).1 (hcontra ▸ hmem)
      have hih := ih m (List.nodup_cons.mp hnd).2 hm
      rw [List.getD_cons_succ]
      unfold internIdx
      rw [if_neg hne, hih]
      rfl

theorem internIdx_some_getD (pool : List String) (b : String) (i : Nat)
    (h : internIdx pool b = some i) :
    pool.getD i "" = b ∧ i < pool.length := by
  induction pool generalizing i with
  | nil => simp [internIdx] at h
  | cons s rest ih =>
    by_cases hs : s = b
    · simp [internIdx, hs] at h
      subst h
      simp [hs]
    · simp [internIdx, hs] at h
      obtain ⟨j, hj, hji⟩ := h
      obtain ⟨h1, h2⟩ := ih j hj
      subst hji
      rw [List.getD_cons_succ]
      exact ⟨h1, by simpa using Nat.succ_lt_succ h2⟩

theorem findMagicAux_spec (reg : TypeRegistry) (name : Nat)
    (hwf : ∀ i, i < reg.length → (reg.getD i ⟨0, []⟩).base ≤ i) :
    ∀ fuel t, t < fuel → t ≤ reg.length →
      findMagicAux reg name fuel t =
        firstNonNil ((ancestorsAux reg fuel t).map
          (fun s => py_tpgetmagic reg s name)) := by
  intro fuel
  induction fuel with
  | zero => intro t hf _; exact absurd hf (Nat.not_lt_zero t)
  | succ fl ih =>
    intro t hf ht
    by_cases h0 : t = 0
    · subst h0
      simp [findMagicAux, ancestorsAux, firstNonNil]
    · have hi : t - 1 < reg.length := by omega
      have hti : reg.get? (t - 1) = some (reg.getD (t - 1) ⟨0, []⟩) := by
        rw [List.get?_eq_getElem?, List.getD_eq_getElem reg _ hi,
          List.getElem?_eq_getElem hi]
      have hbase : (reg.getD (t - 1) ⟨0, []⟩).base ≤ t - 1 := hwf (t - 1) hi
      simp only [findMagicAux, ancestorsAux]
      rw [if_neg h0, if_neg h0, hti]
      by_cases hnil : py_isnil (py_tpgetmagic reg t name) = true
      · rw [if_pos hnil]
        have hrec := ih (reg.getD (t - 1) ⟨0, []⟩).base (by omega) (by omega)
        show findMagicAux reg name fl (reg.getD (t - 1) ⟨0, []⟩).base =
          firstNonNil (List.map (fun s => py_tpgetmagic reg s name)
            (t :: ancestorsAux reg fl (reg.getD (t - 1) ⟨0, []⟩).base))
        rw [hrec]
        simp only [firstNonNil, List.map_cons]
        rw [List.find?_cons_of_neg _ (by simp [hnil])]
      · rw [if_neg hnil]
        show some (py_tpgetmagic reg t name) =
          firstNonNil (List.map (fun s => py_tpgetmagic reg s name)
            (t :: ancestorsAux reg fl (reg.getD (t - 1) ⟨0, []⟩).base))
        simp only [firstNonNil, List.map_cons]
        rw [List.find?_cons_of_pos _ (by simp [hnil])]

/-! ## Claim theorems -/

/-- C1: every immediate constructor (`py_newint`, `py_newfloat`,
`py_newbool`, `py_newnone`, `py_newnotimplemented`, `py_newellipsis`,
`py_newnativefunc`) writes a cell with `is_ptr = false`, and every heap
constructor (`py_newstrn`, `py_newbytes`, `py_newobject`) writes a pointer
cell whose type tag equals the type recorded in the pointed-to heap object's
header. -/
theorem py_new_constructors_cell_invariant
    (c : py_TValue) (i : Int) (x : Float) (b : Bool) (fc : py_CFunction)
    (st : VMState) (s data : List Int) (t slots : Int) (ud : Nat) :
    (py_newint c i).is_ptr = false ∧
    (py_newfloat c x).is_ptr = false ∧
    (py_newbool c b).is_ptr = false ∧
    (py_newnone c).is_ptr = false ∧
    (py_newnotimplemented c).is_ptr = false ∧
    (py_newellipsis c).is_ptr = false ∧
    (py_newnativefunc c fc).is_ptr = false ∧
    cellPtrInvb (py_newstrn st c s).1 (py_newstrn st c s).2 = true ∧
    cellPtrInvb (py_newbytes st c data).1 (py_newbytes st c data).2 = true ∧
    cellPtrInvb (py_newobject st c t slots ud).1 (py_newobject st c t slots ud).2
      = true := by
  refine ⟨rfl, rfl, rfl, rfl, rfl, rfl, rfl, ?_, ?_, ?_⟩
  · simp [py_newstrn, pk_ManagedHeap__gcnew, cellPtrInvb, heapModify_concat,
      heapGet_concat]
  · simp [py_newbytes, pk_ManagedHeap__gcnew, cellPtrInvb, heapModify_concat,
      heapGet_concat]
  · simp [py_newobject, pk_ManagedHeap__gcnew, cellPtrInvb, heapGet_concat]

/-- C4: `py_newbytes` creates a heap object of type `tp_bytes` whose
user-data region is the length `size` followed by a byte-for-byte copy of
the input, and the output cell is a pointer cell tagged `tp_bytes` addressing
that object. -/
theorem py_newbytes_layout (st : VMState) (out : py_TValue) (data : List Int) :
    (py_newbytes st out data).2 =
      ⟨tp_bytes, true, .obj st.heap.objects.length⟩ ∧
    heapGet (py_newbytes st out data).1.heap st.heap.objects.length =
      some ⟨tp_bytes, [], .bytesBuf data.length data⟩ := by
  constructor
  · rfl
  · simp [py_newbytes, pk_ManagedHeap__gcnew, heapModify_concat, heapGet_concat]

/-- C5: `py_newslice` creates a heap object of type `tp_slice` with exactly
3 slots holding `start`, `stop`, `step` in order, and the output cell is a
pointer cell tagged `tp_slice` addressing that object. -/
theorem py_newslice_slots (st : VMState) (out : py_TValue)
    (start stop step : py_TValue) :
    (py_newslice st out start stop step).2 =
      ⟨tp_slice, true, .obj st.heap.objects.length⟩ ∧
    heapGet (py_newslice st out start stop step).1.heap st.heap.objects.length =
      some ⟨tp_slice, [start, stop, step], .uninit 0⟩ := by
  constructor
  · rfl
  · simp [py_newslice, py_newobject, py_setslot, pk_ManagedHeap__gcnew,
      heapModify_concat, heapGet_concat, List.replicate]

/-- C8: the body of `py_newfunction2` is empty, so it returns without
modifying the output cell or any VM state; consequently `py_newfunction`
also leaves the output cell (in particular its type tag) unchanged and never
produces a `tp_function` cell. -/
theorem py_newfunction2_noop (st : VMState) (out : py_TValue)
    (f : py_CFunction) (sig : String) (bt : BindType) (doc : Option String)
    (up : Option py_TValue) :
    py_newfunction2 st out f sig bt doc up = (st, out) ∧
    py_newfunction st out f sig = (st, out) ∧
    (py_newfunction st out f sig).2.type = out.type :=
  ⟨rfl, rfl, rfl⟩

/-- C10: `py_newnull` writes only the type tag, setting it to `0`; the
cell's `is_ptr` flag and payload are left exactly as they were. -/
theorem py_newnull_writes_only_type (c : py_TValue) :
    (py_newnull c).type = 0 ∧
    (py_newnull c).is_ptr = c.is_ptr ∧
    (py_newnull c).payload = c.payload :=
  ⟨rfl, rfl, rfl⟩

/-- C9: `py_bindmethod2` ignores its bind-type argument; it always stores a
plain `nativefunc` cell wrapping `f` under the interned name in the type
object's dict, so `py_bindmethod`, `py_bindmethod2` (for any bind type) and
`py_bindnativefunc` on the type object all have the same effect on the VM
state. -/
theorem py_bindmethod2_ignores_bindtype (st : VMState) (t : Int)
    (name : String) (f : py_CFunction) (bt bt' : BindType) :
    py_bindmethod2 st t name f bt = py_bindmethod2 st t name f bt' ∧
    py_bindmethod st t name f = py_bindmethod2 st t name f bt ∧
    py_bindnativefunc st (py_tpobject t) name f = py_bindmethod2 st t name f bt ∧
    dictsGet (py_bindmethod2 st t name f bt).dicts t.toNat
        (py_name st.names name).2 =
      some (py_newnativefunc nilCell f) := by
  refine ⟨rfl, rfl, rfl, ?_⟩
  simp [py_bindmethod2, py_setdict, py_tpobject, dictsGet_dictsSet]

/-- C3: `py_tpfindmagic(T, name)` equals the first non-`nil` result of
`py_tpgetmagic(T_i, name)` over the ancestors of `T` in base-chain order,
and is NULL exactly when every ancestor's slot is `nil` (for a well-formed
registry in which every base id precedes its subtype's id). -/
theorem py_tpfindmagic_first_nonnil (reg : TypeRegistry) (t : Nat) (name : Nat)
    (hwf : wfRegistryb reg = true) (ht : t ≤ reg.length) :
    py_tpfindmagic reg t name =
      firstNonNil ((ancestors reg t).map (fun s => py_tpgetmagic reg s name)) ∧
    (py_tpfindmagic reg t name = none ↔
      ∀ s ∈ ancestors reg t, py_isnil (py_tpgetmagic reg s name) = true) := by
  have hwf' : ∀ i, i < reg.length → (reg.getD i ⟨0, []⟩).base ≤ i := by
    intro i hi
    have := List.all_eq_true.mp hwf i (List.mem_range.mpr hi)
    exact of_decide_eq_true this
  have hmain := findMagicAux_spec reg name hwf' (t + 1) t (Nat.lt_succ_self t) ht
  refine ⟨hmain, ?_⟩
  rw [py_tpfindmagic] at *
  rw [hmain]
  simp only [firstNonNil, List.find?_eq_none, List.mem_map, ancestors]
  constructor
  · intro h s hs
    have := h (py_tpgetmagic reg s name) ⟨s, hs, rfl⟩
    simpa using this
  · rintro h c ⟨s, hs, rfl⟩
    simpa using h s hs

/-- Witness for C3 on a concrete two-type registry: type 2 derives from
type 1; the slot is `nil` on type 2 and set on type 1, and the walk finds
the base's entry. -/
theorem py_tpfindmagic_first_nonnil_witness :
    wfRegistryb [⟨0, [⟨16, false, .cfunc 7⟩]⟩, ⟨1, [nilCell]⟩] = true ∧
    2 ≤ ([⟨0, [⟨16, false, .cfunc 7⟩]⟩, ⟨1, [nilCell]⟩] : TypeRegistry).length ∧
    py_tpfindmagic [⟨0, [⟨16, false, .cfunc 7⟩]⟩, ⟨1, [nilCell]⟩] 2 0 =
      firstNonNil ((ancestors [⟨0, [⟨16, false, .cfunc 7⟩]⟩, ⟨1, [nilCell]⟩] 2).map
        (fun s => py_tpgetmagic [⟨0, [⟨16, false, .cfunc 7⟩]⟩, ⟨1, [nilCell]⟩] s 0)) :=
  ⟨by decide, by decide,
   (py_tpfindmagic_first_nonnil [⟨0, [⟨16, false, .cfunc 7⟩]⟩, ⟨1, [nilCell]⟩] 2 0
     (by decide) (by decide)).1⟩

/-- C2: a successful `py_vectorcall(argc, kwargc)` writes the result into
the `last_return` register and shrinks the value stack by exactly
`argc + kwargc + 1` cells, leaving the exception slot untouched; a failing
call leaves the exception in the exception slot, returns `false` and shrinks
the stack to the recorded unwind point. -/
theorem py_vectorcall_frame_effect (st : VMState) (argc kwargc : Nat)
    (r e : py_TValue)
    (hstk : argc + kwargc + 1 ≤ st.stack.length)
    (hun : st.unwind ≤ st.stack.length) :
    (py_vectorcall st argc kwargc (.success r)).2 = true ∧
    (py_vectorcall st argc kwargc (.success r)).1.last_return = r ∧
    (py_vectorcall st argc kwargc (.success r)).1.stack.length =
      st.stack.length - (argc + kwargc + 1) ∧
    (py_vectorcall st argc kwargc (.success r)).1.exc = st.exc ∧
    (py_vectorcall st argc kwargc (.failure e)).2 = false ∧
    (py_vectorcall st argc kwargc (.failure e)).1.exc = some e ∧
    (py_vectorcall st argc kwargc (.failure e)).1.stack = st.stack.take st.unwind ∧
    (py_vectorcall st argc kwargc (.failure e)).1.stack.length = st.unwind := by
  refine ⟨rfl, rfl, ?_, rfl, rfl, rfl, rfl, ?_⟩
  · show (st.stack.take (st.stack.length - (argc + kwargc + 1))).length = _
    rw [List.length_take]
    omega
  · show (st.stack.take st.unwind).length = st.unwind
    rw [List.length_take]
    omega

/-- Witness for C2 at a concrete state: a stack of two cells (callable plus
one argument), `argc = 1`, `kwargc = 0`, unwind point 0. -/
theorem py_vectorcall_frame_effect_witness :
    1 + 0 + 1 ≤ (VMState.mk [] ⟨[]⟩ [] [nilCell, nilCell] nilCell none 0).stack.length ∧
    (VMState.mk [] ⟨[]⟩ [] [nilCell, nilCell] nilCell none 0).unwind ≤
      (VMState.mk [] ⟨[]⟩ [] [nilCell, nilCell] nilCell none 0).stack.length ∧
    (py_vectorcall (VMState.mk [] ⟨[]⟩ [] [nilCell, nilCell] nilCell none 0) 1 0
      (.success (py_newint nilCell 5))).1.stack.length =
      (VMState.mk [] ⟨[]⟩ [] [nilCell, nilCell] nilCell none 0).stack.length - (1 + 0 + 1) ∧
    (py_vectorcall (VMState.mk [] ⟨[]⟩ [] [nilCell, nilCell] nilCell none 0) 1 0
      (.failure (py_newint nilCell 7))).1.stack.length =
      (VMState.mk [] ⟨[]⟩ [] [nilCell, nilCell] nilCell none 0).unwind :=
  ⟨by simp, by simp,
   (py_vectorcall_frame_effect (VMState.mk [] ⟨[]⟩ [] [nilCell, nilCell] nilCell none 0)
     1 0 (py_newint nilCell 5) (py_newint nilCell 7) (by simp) (by simp)).2.2.1,
   (py_vectorcall_frame_effect (VMState.mk [] ⟨[]⟩ [] [nilCell, nilCell] nilCell none 0)
     1 0 (py_newint nilCell 5) (py_newint nilCell 7) (by simp) (by simp)).2.2.2.2.2.2.2⟩

/-- C6: the name pool is a bijection between interned byte-sequences and
ids: re-interning the bytes of an already-interned id yields the same id
(without touching the pool), and looking up the id assigned by interning any
byte-sequence yields those bytes back. -/
theorem py_name_roundtrip (pool : List String) (n : Nat) (b : String)
    (hnd : pool.Nodup) (hn : n < pool.length) :
    (py_name pool (py_name2str pool n)).2 = n ∧
    (py_name pool (py_name2str pool n)).1 = pool ∧
    py_name2str (py_name pool b).1 (py_name pool b).2 = b := by
  have hg := internIdx_getD pool n hnd hn
  refine ⟨?_, ?_, ?_⟩
  · simp only [py_name, py_name2str]
    rw [hg]
  · simp only [py_name, py_name2str]
    rw [hg]
  · cases h : internIdx pool b with
    | some i =>
      obtain ⟨h1, h2⟩ := internIdx_some_getD pool b i h
      simp [py_name, py_name2str, h]
      rw [← h1]
      simp [py_name2str]
    | none =>
      simp [py_name, py_name2str, h, List.getD,
        List.getElem?_concat_length]

/-- Witness for C6 on the concrete pool `["x", "y"]` with id 1 and the fresh
byte-sequence `"z"`. -/
theorem py_name_roundtrip_witness :
    (["x", "y"] : List String).Nodup ∧
    1 < (["x", "y"] : List String).length ∧
    (py_name ["x", "y"] (py_name2str ["x", "y"] 1)).2 = 1 ∧
    py_name2str (py_name ["x", "y"] "z").1 (py_name ["x", "y"] "z").2 = "z" :=
  ⟨by decide, by decide,
   (py_name_roundtrip ["x", "y"] 1 "z" (by decide) (by decide)).1,
   (py_name_roundtrip ["x", "y"] 1 "z" (by decide) (by decide)).2.2⟩

/-- C7: pushing onto a value stack whose height equals `PK_VM_STACK_SIZE`
raises `StackOverflowError` and does not write past the stack; below that
height `py_push` appends the cell without raising. -/
theorem py_push_boundary (st : VMState) (v : py_TValue) :
    (st.stack.length = PK_VM_STACK_SIZE →
      (py_push st v).exc = some stackOverflowCell ∧
      (py_push st v).stack = st.stack) ∧
    (st.stack.length < PK_VM_STACK_SIZE →
      (py_push st v).stack = st.stack ++ [v] ∧
      (py_push st v).exc = st.exc) := by
  constructor
  · intro h
    simp [py_push, h]
  · intro h
    simp [py_push, Nat.ne_of_lt h]

/-- Witness for C7: a full stack of 16384 cells overflows; the empty stack
accepts a push. -/
theorem py_push_boundary_witness :
    (VMState.mk [] ⟨[]⟩ [] (List.replicate PK_VM_STACK_SIZE nilCell) nilCell none 0).stack.length
      = PK_VM_STACK_SIZE ∧
    (py_push (VMState.mk [] ⟨[]⟩ [] (List.replicate PK_VM_STACK_SIZE nilCell) nilCell none 0)
      nilCell).exc = some stackOverflowCell ∧
    (VMState.mk [] ⟨[]⟩ [] [] nilCell none 0).stack.length < PK_VM_STACK_SIZE ∧
    (py_push (VMState.mk [] ⟨[]⟩ [] [] nilCell none 0) nilCell).stack = [nilCell] :=
  ⟨by simp,
   ((py_push_boundary (VMState.mk [] ⟨[]⟩ []
       (List.replicate PK_VM_STACK_SIZE nilCell) nilCell none 0) nilCell).1
     (by simp)).1,
   by simp [PK_VM_STACK_SIZE],
   ((py_push_boundary (VMState.mk [] ⟨[]⟩ [] [] nilCell none 0) nilCell).2
     (by simp [PK_VM_STACK_SIZE])).1⟩

end PocketPy
